import Mathlib

/-!
# getty micro echo client (`micro/client/app/main.go`)

A shallow embedding of the client application's own logic:

* `LoadBalance`, the service-selection hook handed to the RPC client;
* `initSignal`, the signal loop that shuts the client down;
* `testJSON`, `testProtobuf` and `test`, the demo calls.

The RPC client, the registry types, the logger, `context` and `math/rand`
are collaborators that live outside the program.  Their calls are embedded
by what the program observes of them: a value handed back, or an event
appended to a trace.
-/

namespace Getty

/-! ## Go values, contexts and machine integers -/

/-- Dynamically typed Go values, as stored in an `interface{}`.  Only the
dynamic type matters to the program (`.(int64)` succeeds on `int64` alone). -/
inductive GoValue where
  | int64 (v : Int)
  | int (v : Int)
  | uint64 (v : Nat)
  | str (s : String)
  | bool (b : Bool)
  deriving DecidableEq, Repr

/-- Values of `context.Context` other than the nil interface: the chain built
by `context.Background()` and `context.WithValue(parent, key, val)`.  The
stored `val` is an `interface{}`, so it may itself be nil (`none`). -/
inductive Context where
  | background
  | withValue (parent : Context) (key : GoValue) (val : Option GoValue)
  deriving DecidableEq, Repr

/-- Lookup `ctx.Value(key)`: the innermost binding of `key`, or nil. -/
def Context.Value : Context → GoValue → Option GoValue
  | .background, _ => none
  | .withValue parent k v, key => if k = key then v else parent.Value key

/-- Two's complement wrap of an integer to a signed `w`-bit machine word. -/
def wrapSigned (w : Nat) (x : Int) : Int :=
  (x + 2 ^ (w - 1)) % 2 ^ w - 2 ^ (w - 1)

/-- Range of the Go type `int64`. -/
def isInt64 (x : Int) : Prop := -(2 ^ 63) ≤ x ∧ x < 2 ^ 63

instance (x : Int) : Decidable (isInt64 x) := by
  unfold isInt64; infer_instance

/-- Conversion `int64(x)`. -/
def toInt64 (x : Int) : Int := wrapSigned 64 x

/-- The widths in bits that the Go type `int` can have: 32 on the 32-bit
targets and 64 on the 64-bit ones. -/
def isIntSize (w : Nat) : Prop := w = 32 ∨ w = 64

instance (w : Nat) : Decidable (isIntSize w) := by
  unfold isIntSize; infer_instance

/-- Conversion `int(x)` on a target whose `int` is `intSize` bits wide: an
`int64` outside that range is truncated. -/
def toInt (intSize : Nat) (x : Int) : Int := wrapSigned intSize x

/-! ## LoadBalance -/

/-- The part of `gxfilter.ServiceArray` that the program reads: the slice
`Arr` of service pointers.  The element type is left abstract. -/
structure ServiceArray (α : Type) where
  Arr : List α
  deriving DecidableEq, Repr

/-- An error value made by `jerrors.Errorf(format, args...)`, kept unrendered. -/
structure GoError where
  format : String
  args : List (Option GoValue)
  deriving DecidableEq, Repr

/-- Run-time panics that the body of `LoadBalance` can raise. -/
inductive GoPanic where
  | indexOutOfRange (index : Int) (len : Nat)
  | nilDereference
  deriving DecidableEq, Repr

/-- How a call of `LoadBalance` ends: `ret s` is the Go result `(s, nil)`,
`fail e` is `(nil, e)`, and `panic p` is a run-time panic. -/
inductive Outcome (α : Type) where
  | ret (service : α)
  | fail (err : GoError)
  | panic (p : GoPanic)
  deriving DecidableEq, Repr

/-- End of a call of `LoadBalance`: its outcome, and the array that the
pointer argument `arr` refers to once the call is over. -/
structure LBResult (α : Type) where
  out : Outcome α
  arr : Option (ServiceArray α)
  deriving DecidableEq, Repr

/-- The index expression `int(seq)%arrLen` of line 94, on a target whose
`int` is `intSize` bits wide.  Go's `%` truncates towards zero, so the
result takes the sign of the dividend. -/
def chosenIndex (intSize : Nat) (seq : Int) (arrLen : Nat) : Int :=
  Int.tmod (toInt intSize seq) (arrLen : Int)

/-- Lines 83-87: the value of the local `seq`, or the error returned.  `rnd`
is the value handed back by `rand.Int()`. -/
def seqOf (rnd : Int) (ctx : Option Context) : Except GoError Int :=
  match ctx with
  | none => .ok (toInt64 rnd)
  | some c =>
    match c.Value (.str "seq") with
    | some (.int64 v) => .ok v
    | other => .error ⟨"illegal seq %#v", [other]⟩

/-- The function `LoadBalance(ctx, arr)` on a target whose `int` is `intSize`
bits wide.  `ctx = none` is the nil context and `arr = none` the nil
pointer; `rnd` is the value handed back by `rand.Int()` when it is called.
The log line written before the return does not affect the result and is
left out. -/
def LoadBalance {α : Type} (intSize : Nat) (rnd : Int) (ctx : Option Context)
    (arr : Option (ServiceArray α)) : LBResult α :=
  match seqOf rnd ctx with
  | .error e => ⟨.fail e, arr⟩
  | .ok seq =>
    match arr with
    | none => ⟨.panic .nilDereference, arr⟩
    | some a =>
      let arrLen := a.Arr.length
      if arrLen = 0 then
        ⟨.fail ⟨"@arr length is 0", []⟩, arr⟩
      else
        let idx := chosenIndex intSize seq arrLen
        if idx < 0 then
          ⟨.panic (.indexOutOfRange idx arrLen), arr⟩
        else
          match a.Arr[idx.toNat]? with
          | some service => ⟨.ret service, arr⟩
          | none => ⟨.panic (.indexOutOfRange idx arrLen), arr⟩

/-- The context `context.WithValue(context.Background(), "seq", v)` built by
the demo calls for an `int64` value `v`. -/
def seqContext (v : Int) : Context :=
  .withValue .background (.str "seq") (some (.int64 v))

/-! ## The signal loop -/

/-- The signals registered with `signal.Notify` (`os.Interrupt` is `SIGINT`,
`os.Kill` is `SIGKILL`). -/
inductive Signal where
  | SIGHUP
  | SIGINT
  | SIGQUIT
  | SIGTERM
  | SIGKILL
  deriving DecidableEq, Repr

/-- What `initSignal` and the timer callback do to their collaborators, in
the order in which it happens. -/
inductive SigEvent where
  | logInfo (format : String) (sig : Signal)
  | afterFunc (timeout : Int)
  | clientClose
  | logExit (msg : String)
  | logClose
  deriving DecidableEq, Repr

/-- Where a run of `initSignal` stands once the signals received so far have
been handled: `waiting` (the loop is blocked on the channel), `returned`
(the function has returned to `main`), `exited` (the process was ended by
`log.Exit("app exit now...")`), or `forcedExit` (the process was ended by
the timer callback). -/
inductive RunStatus where
  | waiting
  | returned
  | exited
  | forcedExit
  deriving DecidableEq, Repr

/-- State of a run of `initSignal`: the events so far and where it stands. -/
structure SignalRun where
  trace : List SigEvent
  status : RunStatus
  deriving DecidableEq, Repr

/-- When the callback handed to `time.AfterFunc`, which runs on a goroutine
of its own, fires with respect to the steps of `initSignal`: before
`uninitClient()` is called, after that call has been made, or not before
`initSignal` has itself reached `log.Exit`. -/
inductive TimerRace where
  | firesBeforeClose
  | firesAfterCloseCall
  | mainExitsFirst
  deriving DecidableEq, Repr

/-- The function `uninitClient()`: it calls `client.Close()`. -/
def uninitClient (tr : List SigEvent) : List SigEvent :=
  tr ++ [.clientClose]

/-- The logger's `log.Exit(msg)`: it writes the message and ends the
process.  The source calls it where `os.Exit(1)` stood (lines 128-130), and
the comment of line 134 says that the program exits on either path.  The
second component tells whether control comes back to the caller: it does
not. -/
def logExit (msg : String) (tr : List SigEvent) : List SigEvent × Bool :=
  (tr ++ [.logExit msg], false)

/-- The callback of lines 127-132, run when the timer fires: `log.Exit`
ends the process, so the `log.Close()` after it is not reached. -/
def timerCallback (tr : List SigEvent) : SignalRun :=
  ⟨(logExit "app exit now by force..." tr).1, .forcedExit⟩

/-- The loop of `initSignal()`, run on the signals that arrive on the
channel, in order.  `timeout` is the parsed `conf.FailFastTimeout` and
`race` tells when the timer callback fires. -/
def initSignal (timeout : Int) (race : TimerRace) :
    List Signal → List SigEvent → SignalRun
  | [], tr => ⟨tr, .waiting⟩
  | sig :: rest, tr =>
    let tr := tr ++ [.logInfo "get signal %s" sig]
    match sig with
    | .SIGHUP => initSignal timeout race rest tr
    | _ =>
      let tr := tr ++ [.afterFunc timeout]
      match race with
      | .firesBeforeClose => timerCallback tr
      | .firesAfterCloseCall => timerCallback (uninitClient tr)
      | .mainExitsFirst =>
        let tr := uninitClient tr
        let r := logExit "app exit now..." tr
        if r.2 then
          ⟨r.1 ++ [.logClose], .returned⟩
        else
          ⟨r.1, .exited⟩

/-! ## The demo calls -/

/-- The codec identifiers `rpc.CodecJson` and `rpc.CodecProtobuf`. -/
inductive Codec where
  | CodecJson
  | CodecProtobuf
  deriving DecidableEq, Repr

/-- What the demo does to its collaborators, in program order.  A `call`
records the `"seq"` value of the context, the codec and the method name
passed to `client.Call`. -/
inductive DemoEvent where
  | call (seq : Option GoValue) (codec : Codec) (method : String)
  | logError (format : String)
  | logInfo (format : String)
  | logDebug (format : String)
  deriving DecidableEq, Repr

/-- State of the demo: the package-level counter `seq` and the events so far. -/
structure DemoState where
  seq : Int
  trace : List DemoEvent
  deriving DecidableEq, Repr

/-- The new value stored and returned by `atomic.AddInt64(addr, delta)`, for
the old value `old`: the sum, wrapped to 64 bits. -/
def atomicAddInt64 (old delta : Int) : Int :=
  toInt64 (old + delta)

/-- A call `client.Call(ctx, codec, ..., method, ...)`: it is recorded, and
`callErr codec method` tells whether it hands back an error. -/
def clientCall (callErr : Codec → String → Bool) (ctx : Context) (codec : Codec)
    (method : String) (s : DemoState) : Bool × DemoState :=
  (callErr codec method,
    { s with trace := s.trace ++ [.call (ctx.Value (.str "seq")) codec method] })

/-- Append one event to the trace. -/
def emit (e : DemoEvent) (s : DemoState) : DemoState :=
  { s with trace := s.trace ++ [e] }

/-- The function `testJSON()`. -/
def testJSON (callErr : Codec → String → Bool) (s : DemoState) : DemoState :=
  let n := atomicAddInt64 s.seq 1
  let s := { s with seq := n }
  let ctx := Context.withValue .background (.str "seq") (some (.int64 n))
  let r := clientCall callErr ctx .CodecJson "Test" s
  if r.1 then
    emit (.logError "client.Call(Json, TestService::Test) = error:%s") r.2
  else
    let s := emit (.logInfo "TestService::Test(Json, param:%#v) = res:%s") r.2
    let n := atomicAddInt64 s.seq 1
    let s := { s with seq := n }
    let ctx := Context.withValue .background (.str "seq") (some (.int64 n))
    let r := clientCall callErr ctx .CodecJson "Add" s
    if r.1 then
      emit (.logError "client.Call(Json, TestService::Add) = error:%s") r.2
    else
      let s := emit (.logInfo "TestService::Add(Json, req:%#v) = res:%#v") r.2
      let n := atomicAddInt64 s.seq 1
      let s := { s with seq := n }
      let ctx := Context.withValue .background (.str "seq") (some (.int64 n))
      let r := clientCall callErr ctx .CodecJson "Err" s
      if r.1 then
        emit (.logError "client.Call(Json, TestService::Err) = error:%s") r.2
      else
        emit (.logInfo "TestService::Err(Json, req:%#v) = res:%s") r.2

/-- The function `testProtobuf()`. -/
def testProtobuf (callErr : Codec → String → Bool) (s : DemoState) : DemoState :=
  let n := atomicAddInt64 s.seq 1
  let s := { s with seq := n }
  let ctx := Context.withValue .background (.str "seq") (some (.int64 n))
  let r := clientCall callErr ctx .CodecProtobuf "Test" s
  if r.1 then
    emit (.logError "client.Call(protobuf, TestService::Test) = error:%s") r.2
  else
    let s := emit (.logInfo "TestService::Test(protobuf, param:%#v) = res:%s") r.2
    let n := atomicAddInt64 s.seq 1
    let s := { s with seq := n }
    let ctx := Context.withValue .background (.str "seq") (some (.int64 n))
    let r := clientCall callErr ctx .CodecProtobuf "Add" s
    if r.1 then
      emit (.logError "client.Call(protobuf, TestService::Add) = error:%s") r.2
    else
      let s := emit (.logInfo "TestService::Add(protobuf, req:%#v) = res:%#v") r.2
      let n := atomicAddInt64 s.seq 1
      let s := { s with seq := n }
      let ctx := Context.withValue .background (.str "seq") (some (.int64 n))
      let r := clientCall callErr ctx .CodecProtobuf "Err" s
      if r.1 then
        emit (.logError "client.Call(protobuf, TestService::Err) = error:%s") r.2
      else
        emit (.logInfo "TestService::Err(protobuf, req:%#v) = res:%#v") r.2

/-- The function `test()`: the loop `for i := 0; i < 1; i++` around the two
batches. -/
def test (callErr : Codec → String → Bool) (s : DemoState) : DemoState :=
  (List.range 1).foldl
    (fun s _ =>
      let s := emit (.logDebug "start to test json:") s
      let s := testJSON callErr s
      let s := emit (.logDebug "start to test pb:") s
      testProtobuf callErr s)
    s

/-- The `client.Call` invocations of a trace, in order, as codec and method. -/
def attempted (tr : List DemoEvent) : List (Codec × String) :=
  tr.filterMap fun e =>
    match e with
    | .call _ codec method => some (codec, method)
    | _ => none

/-- The methods of a batch that are called when the batch stops at the first
call that hands back an error: the methods up to and including that one. -/
def throughFirstFailure (fails : String → Bool) : List String → List String
  | [] => []
  | m :: ms => if fails m then [m] else m :: throughFirstFailure fails ms

/-- The value of the counter `seq` after `k` calls of
`atomic.AddInt64(&seq, 1)`, when it holds `S` before the first one. -/
def counterAfter (S : Int) : Nat → Int
  | 0 => S
  | k + 1 => atomicAddInt64 (counterAfter S k) 1

/-! ## Machine integers -/

theorem wrapSigned_of_range (w : Nat) (hw : 0 < w) (x : Int)
    (hlo : -(2 ^ (w - 1)) ≤ x) (hhi : x < 2 ^ (w - 1)) : wrapSigned w x = x := by
  obtain ⟨k, rfl⟩ : ∃ k, w = k + 1 := ⟨w - 1, by omega⟩
  have h2 : (2 : Int) ^ (k + 1) = 2 * 2 ^ k := by rw [pow_succ]; ring
  unfold wrapSigned
  simp only [Nat.add_sub_cancel] at hlo hhi ⊢
  rw [h2]
  generalize (2 : Int) ^ k = B at hlo hhi ⊢
  rw [Int.emod_eq_of_lt (by omega) (by omega)]
  omega

theorem isIntSize_pos (w : Nat) (hw : isIntSize w) : 0 < w := by
  rcases hw with rfl | rfl <;> decide

theorem isIntSize_pow_le (w : Nat) (hw : isIntSize w) : (2 : Int) ^ (w - 1) ≤ 2 ^ 63 := by
  rcases hw with rfl | rfl <;> norm_num

theorem toInt_of_range (w : Nat) (hw : isIntSize w) (x : Int) (h0 : 0 ≤ x)
    (h1 : x < 2 ^ (w - 1)) : toInt w x = x := by
  have hpos : (0 : Int) ≤ 2 ^ (w - 1) := by positivity
  exact wrapSigned_of_range w (isIntSize_pos w hw) x (by omega) h1

theorem toInt64_of_range (x : Int) (hlo : -(2 ^ 63) ≤ x) (hhi : x < 2 ^ 63) :
    toInt64 x = x :=
  wrapSigned_of_range 64 (by decide) x hlo hhi

theorem chosenIndex_of_nonneg (w : Nat) (hw : isIntSize w) (S : Int) (N : Nat)
    (h0 : 0 ≤ S) (h1 : S < 2 ^ (w - 1)) : chosenIndex w S N = S % (N : Int) := by
  unfold chosenIndex
  rw [toInt_of_range w hw S h0 h1]
  exact Int.tmod_eq_emod h0 (Int.ofNat_nonneg N)

theorem chosenIndex_toNat (w : Nat) (hw : isIntSize w) (S : Int) (N : Nat)
    (h0 : 0 ≤ S) (h1 : S < 2 ^ (w - 1)) :
    chosenIndex w S N = ((S.toNat % N : Nat) : Int) := by
  rw [chosenIndex_of_nonneg w hw S N h0 h1]
  have hS : ((S.toNat : Nat) : Int) = S := Int.toNat_of_nonneg h0
  rw [Int.natCast_mod, hS]

/-! ## LoadBalance: the selection step -/

/-- Once the local `seq` holds a non-negative value in the range of `int`
and the array is not empty, the call returns the element at `seq mod len`. -/
theorem LoadBalance_of_seqOf {α : Type} (w : Nat) (hw : isIntSize w) (rnd : Int)
    (ctx : Option Context) (a : ServiceArray α) (S : Int) (hseq : seqOf rnd ctx = .ok S)
    (h0 : 0 ≤ S) (h1 : S < 2 ^ (w - 1)) (hN : 0 < a.Arr.length) :
    LoadBalance w rnd ctx (some a)
      = ⟨.ret (a.Arr.get ⟨S.toNat % a.Arr.length, Nat.mod_lt _ hN⟩), some a⟩ := by
  have hlt : S.toNat % a.Arr.length < a.Arr.length := Nat.mod_lt _ hN
  have hne : a.Arr.length ≠ 0 := Nat.pos_iff_ne_zero.mp hN
  have hidx := chosenIndex_toNat w hw S a.Arr.length h0 h1
  unfold LoadBalance
  rw [hseq]
  simp only [hne, if_false, hidx]
  have hnn : ¬ (((S.toNat % a.Arr.length : Nat) : Int) < 0) := by omega
  rw [if_neg hnn, Int.toNat_ofNat, List.getElem?_eq_getElem hlt]
  rfl

theorem seqOf_int64 (rnd : Int) (c : Context) (S : Int)
    (hc : c.Value (.str "seq") = some (.int64 S)) : seqOf rnd (some c) = .ok S := by
  simp [seqOf, hc]

theorem seqOf_not_int64 (rnd : Int) (c : Context)
    (hc : ∀ S, c.Value (.str "seq") ≠ some (.int64 S)) :
    seqOf rnd (some c) = .error ⟨"illegal seq %#v", [c.Value (.str "seq")]⟩ := by
  simp only [seqOf]

theorem LoadBalance_of_seqOf_error {α : Type} (w : Nat) (rnd : Int) (ctx : Option Context)
    (arr : Option (ServiceArray α)) (e : GoError) (hseq : seqOf rnd ctx = .error e) :
    LoadBalance w rnd ctx arr = ⟨.fail e, arr⟩ := by
  unfold LoadBalance
  rw [hseq]

theorem LoadBalance_empty_of_seqOf {α : Type} (w : Nat) (rnd : Int) (ctx : Option Context)
    (a : ServiceArray α) (S : Int) (hseq : seqOf rnd ctx = .ok S) (ha : a.Arr = []) :
    LoadBalance w rnd ctx (some a) = ⟨.fail ⟨"@arr length is 0", []⟩, some a⟩ := by
  unfold LoadBalance
  rw [hseq]
  simp [ha]

/-! ## LoadBalance: sequence values carried by the context -/

/-- C1, counterexample.  With the candidates `[A, B, C, D]` and the `int64`
sequence value `-2` under the key `"seq"`, the index `int(seq)%arrLen` is
`-2` on the 64-bit and on the 32-bit targets: the call panics with an index
out of range and does not return `candidates[abs(-2) mod 4] = C`. -/
theorem LoadBalance_negative_seq_panics :
    (seqContext (-2)).Value (.str "seq") = some (.int64 (-2)) ∧ isInt64 (-2) ∧
    (["A", "B", "C", "D"])[(-2 : Int).natAbs % 4]? = some "C" ∧
    chosenIndex 64 (-2) 4 = -2 ∧
    (LoadBalance 64 0 (some (seqContext (-2))) (some ⟨["A", "B", "C", "D"]⟩)).out
      = .panic (.indexOutOfRange (-2) 4) ∧
    (LoadBalance 64 0 (some (seqContext (-2))) (some ⟨["A", "B", "C", "D"]⟩)).out
      ≠ .ret "C" ∧
    chosenIndex 32 (-2) 4 = -2 ∧
    (LoadBalance 32 0 (some (seqContext (-2))) (some ⟨["A", "B", "C", "D"]⟩)).out
      = .panic (.indexOutOfRange (-2) 4) := by
  decide

/-- C1, amended.  On a target whose `int` is `w` bits wide (32 or 64), for
every non-empty candidate set of length `N` and every non-negative sequence
value `S` in the range of `int` (`S < 2^(w-1)`) that the context carries as
an `int64` under the key `"seq"`, the chosen index is `abs(S) mod N` and
`LoadBalance` returns without error the instance `candidates[abs(S) mod N]`. -/
theorem LoadBalance_abs_of_nonneg_seq {α : Type} (w : Nat) (hw : isIntSize w)
    (rnd : Int) (c : Context) (a : ServiceArray α) (S : Int)
    (hc : c.Value (.str "seq") = some (.int64 S))
    (h0 : 0 ≤ S) (h1 : S < 2 ^ (w - 1)) (hN : 0 < a.Arr.length) :
    chosenIndex w S a.Arr.length = ((S.natAbs % a.Arr.length : Nat) : Int) ∧
    LoadBalance w rnd (some c) (some a)
      = ⟨.ret (a.Arr.get ⟨S.natAbs % a.Arr.length, Nat.mod_lt _ hN⟩), some a⟩ := by
  have habs : S.natAbs = S.toNat := by omega
  have hcall :=
    LoadBalance_of_seqOf w hw rnd (some c) a S (seqOf_int64 rnd c S hc) h0 h1 hN
  have hidx := chosenIndex_toNat w hw S a.Arr.length h0 h1
  simp only [habs]
  exact ⟨hidx, hcall⟩

/-- C1, amended, at the spec's first scenario on a 32-bit target: candidates
`[A, B, C]` and sequence value `5` give `C`. -/
theorem LoadBalance_abs_of_nonneg_seq_witness :
    chosenIndex 32 5 (["A", "B", "C"]).length = 2 ∧
    LoadBalance 32 0 (some (seqContext 5)) (some ⟨["A", "B", "C"]⟩)
      = ⟨.ret "C", some ⟨["A", "B", "C"]⟩⟩ :=
  LoadBalance_abs_of_nonneg_seq 32 (by decide) 0 (seqContext 5) ⟨["A", "B", "C"]⟩ 5
    (by decide) (by decide) (by decide) (by decide)

/-- C9, counterexample.  On a target whose `int` is 32 bits wide, the
non-negative `int64` sequence value `2^31` is truncated by `int(seq)` to
`-2^31`; with the candidates `[A, B, C]` the index is `-2` and the call
panics instead of returning `candidates[2^31 mod 3] = C`. -/
theorem LoadBalance_nonneg_seq_truncated :
    isIntSize 32 ∧ isInt64 2147483648 ∧ (0 : Int) ≤ 2147483648 ∧
    (seqContext 2147483648).Value (.str "seq") = some (.int64 2147483648) ∧
    toInt 32 2147483648 = -2147483648 ∧
    chosenIndex 32 2147483648 3 = -2 ∧
    (["A", "B", "C"])[(2147483648 : Int).toNat % 3]? = some "C" ∧
    (LoadBalance 32 0 (some (seqContext 2147483648)) (some ⟨["A", "B", "C"]⟩)).out
      = .panic (.indexOutOfRange (-2) 3) ∧
    (LoadBalance 32 0 (some (seqContext 2147483648)) (some ⟨["A", "B", "C"]⟩)).out
      ≠ .ret "C" := by
  decide

/-- C9, amended.  On a target whose `int` is `w` bits wide (32 or 64), for
every non-empty candidate set of length `N` and every non-negative sequence
value `S` in the range of `int` (`S < 2^(w-1)`: every non-negative `int64`
when `w` is 64) that the context carries as an `int64` under the key
`"seq"`, the index `int(S) % N` equals `S mod N` and lies in `[0, N)`,
`LoadBalance` returns without error exactly `candidates[S mod N]`, and the
candidate set is the same after the call. -/
theorem LoadBalance_mod_of_nonneg_seq {α : Type} (w : Nat) (hw : isIntSize w)
    (rnd : Int) (c : Context) (a : ServiceArray α) (S : Int)
    (hc : c.Value (.str "seq") = some (.int64 S))
    (h0 : 0 ≤ S) (h1 : S < 2 ^ (w - 1)) (hN : 0 < a.Arr.length) :
    chosenIndex w S a.Arr.length = S % (a.Arr.length : Int) ∧
    0 ≤ chosenIndex w S a.Arr.length ∧
    chosenIndex w S a.Arr.length < (a.Arr.length : Int) ∧
    (LoadBalance w rnd (some c) (some a)).out
      = .ret (a.Arr.get ⟨S.toNat % a.Arr.length, Nat.mod_lt _ hN⟩) ∧
    (LoadBalance w rnd (some c) (some a)).arr = some a := by
  have hpos : (0 : Int) < (a.Arr.length : Int) := by exact_mod_cast hN
  have hidx := chosenIndex_of_nonneg w hw S a.Arr.length h0 h1
  have hcall :=
    LoadBalance_of_seqOf w hw rnd (some c) a S (seqOf_int64 rnd c S hc) h0 h1 hN
  refine ⟨hidx, ?_, ?_, ?_, ?_⟩
  · rw [hidx]
    exact Int.emod_nonneg S (ne_of_gt hpos)
  · rw [hidx]
    exact Int.emod_lt_of_pos S hpos
  · rw [hcall]
  · rw [hcall]

/-- C9, amended, at a concrete input on a 64-bit target: candidates `[A, B]`
and the sequence value `2^31 + 1`, which does not fit a 32-bit `int`. -/
theorem LoadBalance_mod_of_nonneg_seq_witness :
    chosenIndex 64 2147483649 (["A", "B"]).length
      = 2147483649 % ((["A", "B"]).length : Int) ∧
    0 ≤ chosenIndex 64 2147483649 (["A", "B"]).length ∧
    chosenIndex 64 2147483649 (["A", "B"]).length < ((["A", "B"]).length : Int) ∧
    (LoadBalance 64 0 (some (seqContext 2147483649)) (some ⟨["A", "B"]⟩)).out
      = .ret "B" ∧
    (LoadBalance 64 0 (some (seqContext 2147483649)) (some ⟨["A", "B"]⟩)).arr
      = some ⟨["A", "B"]⟩ :=
  LoadBalance_mod_of_nonneg_seq 64 (by decide) 0 (seqContext 2147483649) ⟨["A", "B"]⟩
    2147483649 (by decide) (by decide) (by decide) (by decide)

/-! ## LoadBalance: the error paths -/

/-- C3.  On every target, for every candidate set (nil, empty or not) and
every non-nil context whose `"seq"` value is present but is not an `int64`,
`LoadBalance` fails with the error `illegal seq ...` made from that value,
and returns no instance. -/
theorem LoadBalance_illegal_seq {α : Type} (w : Nat) (rnd : Int) (c : Context)
    (arr : Option (ServiceArray α)) (v : GoValue)
    (hc : c.Value (.str "seq") = some v) (hv : ∀ S, v ≠ .int64 S) :
    LoadBalance w rnd (some c) arr = ⟨.fail ⟨"illegal seq %#v", [some v]⟩, arr⟩ := by
  have hne : ∀ S, c.Value (.str "seq") ≠ some (.int64 S) := by
    intro S h
    rw [hc] at h
    exact hv S (Option.some.inj h)
  rw [LoadBalance_of_seqOf_error w rnd (some c) arr _ (seqOf_not_int64 rnd c hne), hc]

/-- C3 at the spec's fourth scenario: candidates `[A, B]` and the sequence
value `"not-an-int"`. -/
theorem LoadBalance_illegal_seq_witness :
    LoadBalance 64 0
        (some (.withValue .background (.str "seq") (some (.str "not-an-int"))))
        (some ⟨["A", "B"]⟩)
      = ⟨.fail ⟨"illegal seq %#v", [some (.str "not-an-int")]⟩, some ⟨["A", "B"]⟩⟩ :=
  LoadBalance_illegal_seq 64 0
    (.withValue .background (.str "seq") (some (.str "not-an-int")))
    (some ⟨["A", "B"]⟩) (.str "not-an-int") (by decide) (by intro S h; cases h)

/-- C2, counterexample.  With an empty candidate set, a context whose `"seq"`
is a string, and a context with no `"seq"` at all, both fail with
`illegal seq ...` and not with `@arr length is 0`: the context is checked
before the length. -/
theorem LoadBalance_empty_illegal_seq :
    (LoadBalance 64 0
        (some (.withValue .background (.str "seq") (some (.str "not-an-int"))))
        (some (⟨[]⟩ : ServiceArray String))).out
      = .fail ⟨"illegal seq %#v", [some (.str "not-an-int")]⟩ ∧
    (LoadBalance 64 0 (some .background) (some (⟨[]⟩ : ServiceArray String))).out
      = .fail ⟨"illegal seq %#v", [none]⟩ ∧
    (LoadBalance 64 0
        (some (.withValue .background (.str "seq") (some (.str "not-an-int"))))
        (some (⟨[]⟩ : ServiceArray String))).out
      ≠ .fail ⟨"@arr length is 0", []⟩ ∧
    (LoadBalance 64 0 (some .background) (some (⟨[]⟩ : ServiceArray String))).out
      ≠ .fail ⟨"@arr length is 0", []⟩ := by
  decide

/-- C2, amended.  On every target, `LoadBalance` called with an empty
candidate set always fails and returns no instance.  The error is
`@arr length is 0` when the context is nil or carries an `int64` under
`"seq"`; it is `illegal seq ...` when a non-nil context carries a `"seq"` of
another type or none at all. -/
theorem LoadBalance_empty {α : Type} (w : Nat) (rnd : Int) (ctx : Option Context) :
    (ctx = none ∨ (∃ c S, ctx = some c ∧ c.Value (.str "seq") = some (.int64 S)) →
      LoadBalance w rnd ctx (some (⟨[]⟩ : ServiceArray α))
        = ⟨.fail ⟨"@arr length is 0", []⟩, some ⟨[]⟩⟩) ∧
    (∀ c, ctx = some c → (∀ S, c.Value (.str "seq") ≠ some (.int64 S)) →
      LoadBalance w rnd ctx (some (⟨[]⟩ : ServiceArray α))
        = ⟨.fail ⟨"illegal seq %#v", [c.Value (.str "seq")]⟩, some ⟨[]⟩⟩) ∧
    (∃ e, LoadBalance w rnd ctx (some (⟨[]⟩ : ServiceArray α))
      = ⟨.fail e, some ⟨[]⟩⟩) := by
  have hnil : seqOf rnd none = .ok (toInt64 rnd) := rfl
  have h1 : ctx = none ∨ (∃ c S, ctx = some c ∧ c.Value (.str "seq") = some (.int64 S)) →
      LoadBalance w rnd ctx (some (⟨[]⟩ : ServiceArray α))
        = ⟨.fail ⟨"@arr length is 0", []⟩, some ⟨[]⟩⟩ := by
    rintro (h | ⟨c, S, h, hc⟩)
    · subst h
      exact LoadBalance_empty_of_seqOf w rnd none ⟨[]⟩ _ hnil rfl
    · subst h
      exact LoadBalance_empty_of_seqOf w rnd (some c) ⟨[]⟩ S (seqOf_int64 rnd c S hc) rfl
  have h2 : ∀ c, ctx = some c → (∀ S, c.Value (.str "seq") ≠ some (.int64 S)) →
      LoadBalance w rnd ctx (some (⟨[]⟩ : ServiceArray α))
        = ⟨.fail ⟨"illegal seq %#v", [c.Value (.str "seq")]⟩, some ⟨[]⟩⟩ := by
    intro c h hc
    subst h
    exact LoadBalance_of_seqOf_error w rnd (some c) _ _ (seqOf_not_int64 rnd c hc)
  refine ⟨h1, h2, ?_⟩
  rcases ctx with _ | c
  · exact ⟨_, h1 (Or.inl rfl)⟩
  · by_cases hc : ∃ S, c.Value (.str "seq") = some (.int64 S)
    · obtain ⟨S, hS⟩ := hc
      exact ⟨_, h1 (Or.inr ⟨c, S, rfl, hS⟩)⟩
    · exact ⟨_, h2 c rfl (fun S hS => hc ⟨S, hS⟩)⟩

/-- C2, amended, at the spec's third scenario (no candidates, sequence value
`7`) and at a context whose `"seq"` is a string. -/
theorem LoadBalance_empty_witness :
    LoadBalance 64 0 (some (seqContext 7)) (some (⟨[]⟩ : ServiceArray String))
      = ⟨.fail ⟨"@arr length is 0", []⟩, some ⟨[]⟩⟩ ∧
    LoadBalance 64 0
        (some (.withValue .background (.str "seq") (some (.str "not-an-int"))))
        (some (⟨[]⟩ : ServiceArray String))
      = ⟨.fail ⟨"illegal seq %#v", [some (.str "not-an-int")]⟩, some ⟨[]⟩⟩ :=
  ⟨(LoadBalance_empty 64 0 (some (seqContext 7))).1
      (Or.inr ⟨seqContext 7, 7, rfl, by decide⟩),
    (LoadBalance_empty 64 0
        (some (.withValue .background (.str "seq") (some (.str "not-an-int"))))).2.1
      _ rfl (by intro S h; simp [Context.Value] at h)⟩

/-! ## LoadBalance: no sequence value -/

/-- C4, counterexample.  A non-nil context with no `"seq"` entry makes
`LoadBalance` fail with `illegal seq ...` on the candidates `[A, B]`, for
whatever value the random source would give: no instance is returned. -/
theorem LoadBalance_background_fails :
    Context.background.Value (.str "seq") = none ∧
    (LoadBalance 64 5 (some .background) (some ⟨["A", "B"]⟩)).out
      = .fail ⟨"illegal seq %#v", [none]⟩ ∧
    (LoadBalance 64 5 (some .background) (some ⟨["A", "B"]⟩)).out ≠ .ret "B" := by
  decide

/-- C4, amended.  On a target whose `int` is `w` bits wide (32 or 64), for
every non-empty candidate set of length `N`, with a nil context
`LoadBalance` does not fail: for the non-negative `int` value `r` drawn from
the random source it returns `candidates[r mod N]`.  With a non-nil context
that has no `"seq"` entry it fails with `illegal seq ...`. -/
theorem LoadBalance_no_seq {α : Type} (w : Nat) (hw : isIntSize w) (r : Int)
    (a : ServiceArray α) (h0 : 0 ≤ r) (h1 : r < 2 ^ (w - 1)) (hN : 0 < a.Arr.length) :
    LoadBalance w r none (some a)
      = ⟨.ret (a.Arr.get ⟨r.toNat % a.Arr.length, Nat.mod_lt _ hN⟩), some a⟩ ∧
    ∀ c : Context, c.Value (.str "seq") = none →
      LoadBalance w r (some c) (some a)
        = ⟨.fail ⟨"illegal seq %#v", [none]⟩, some a⟩ := by
  have hle := isIntSize_pow_le w hw
  have hhi : r < 2 ^ 63 := lt_of_lt_of_le h1 hle
  have hlo : -(2 ^ 63 : Int) ≤ r := by
    have : (0 : Int) ≤ 2 ^ 63 := by norm_num
    omega
  have hseq : seqOf r none = .ok r := by
    show Except.ok (toInt64 r) = Except.ok r
    rw [toInt64_of_range r hlo hhi]
  refine ⟨LoadBalance_of_seqOf w hw r none a r hseq h0 h1 hN, ?_⟩
  intro c hc
  have hne : ∀ S, c.Value (.str "seq") ≠ some (.int64 S) := by
    intro S h
    rw [hc] at h
    cases h
  rw [LoadBalance_of_seqOf_error w r (some c) (some a) _ (seqOf_not_int64 r c hne), hc]

/-- C4, amended, at a concrete input: the draw `5` on the candidates
`[A, B, C]` gives `C`. -/
theorem LoadBalance_no_seq_witness :
    LoadBalance 64 5 none (some ⟨["A", "B", "C"]⟩)
      = ⟨.ret "C", some ⟨["A", "B", "C"]⟩⟩ ∧
    ∀ c : Context, c.Value (.str "seq") = none →
      LoadBalance 64 5 (some c) (some ⟨["A", "B", "C"]⟩)
        = ⟨.fail ⟨"illegal seq %#v", [none]⟩, some ⟨["A", "B", "C"]⟩⟩ :=
  LoadBalance_no_seq 64 (by decide) 5 ⟨["A", "B", "C"]⟩ (by decide) (by decide)
    (by decide)

/-- C6.  On every target, with a nil context and a candidate set of length
exactly 1, `LoadBalance` returns that single candidate without error for
every value the random source can give, so any two calls return the same
instance. -/
theorem LoadBalance_singleton {α : Type} (w : Nat) (x : α) :
    (∀ r : Int, LoadBalance w r none (some ⟨[x]⟩) = ⟨.ret x, some ⟨[x]⟩⟩) ∧
    (∀ r r2 : Int, chosenIndex w (toInt64 r) 1 = 0 ∧
      LoadBalance w r none (some (⟨[x]⟩ : ServiceArray α))
        = LoadBalance w r2 none (some ⟨[x]⟩)) := by
  have hidx : ∀ r : Int, chosenIndex w (toInt64 r) 1 = 0 := by
    intro r
    unfold chosenIndex
    exact Int.tmod_one _
  have hcall : ∀ r : Int, LoadBalance w r none (some ⟨[x]⟩) = ⟨.ret x, some ⟨[x]⟩⟩ := by
    intro r
    have h := hidx r
    simp only [Nat.cast_one] at h
    simp [LoadBalance, seqOf, h]
  exact ⟨hcall, fun r r2 => ⟨hidx r, by rw [hcall r, hcall r2]⟩⟩

/-! ## LoadBalance: index out of range -/

/-- C5, the failing input.  With the candidates `[A, B]` and the `int64`
sequence value `-1` under `"seq"`, no error is returned and the index
`int(seq)%arrLen` is `-1`, outside `[0, 2)`, on the 64-bit and on the 32-bit
targets: the call panics. -/
theorem LoadBalance_index_out_of_range :
    chosenIndex 64 (-1) 2 = -1 ∧
    LoadBalance 64 0 (some (seqContext (-1))) (some ⟨["A", "B"]⟩)
      = ⟨.panic (.indexOutOfRange (-1) 2), some ⟨["A", "B"]⟩⟩ ∧
    chosenIndex 32 (-1) 2 = -1 ∧
    LoadBalance 32 0 (some (seqContext (-1))) (some ⟨["A", "B"]⟩)
      = ⟨.panic (.indexOutOfRange (-1) 2), some ⟨["A", "B"]⟩⟩ := by
  decide

/-! ## The signal loop -/

theorem initSignal_hups (timeout : Int) (race : TimerRace) (hups rest : List Signal)
    (tr : List SigEvent) (hh : ∀ s ∈ hups, s = Signal.SIGHUP) :
    initSignal timeout race (hups ++ rest) tr
      = initSignal timeout race rest
          (tr ++ hups.map (SigEvent.logInfo "get signal %s")) := by
  induction hups generalizing tr with
  | nil => simp
  | cons s hups ih =>
    have hs : s = Signal.SIGHUP := hh s (List.mem_cons_self s hups)
    have htl : ∀ t ∈ hups, t = Signal.SIGHUP := fun t ht => hh t (List.mem_cons_of_mem s ht)
    subst hs
    have hstep : initSignal timeout race (Signal.SIGHUP :: (hups ++ rest)) tr
        = initSignal timeout race (hups ++ rest)
            (tr ++ [SigEvent.logInfo "get signal %s" Signal.SIGHUP]) := rfl
    rw [List.cons_append, hstep, ih _ htl]
    simp

/-- The runs that follow the first signal other than `SIGHUP`, after the
events `pre`: one for each way the timer can fire. -/
theorem initSignal_stop (timeout : Int) (race : TimerRace) (sig : Signal)
    (rest : List Signal) (tr : List SigEvent) (hs : sig ≠ Signal.SIGHUP) :
    initSignal timeout race (sig :: rest) tr
      = match race with
        | .firesBeforeClose =>
          ⟨tr ++ [.logInfo "get signal %s" sig, .afterFunc timeout,
              .logExit "app exit now by force..."], .forcedExit⟩
        | .firesAfterCloseCall =>
          ⟨tr ++ [.logInfo "get signal %s" sig, .afterFunc timeout, .clientClose,
              .logExit "app exit now by force..."], .forcedExit⟩
        | .mainExitsFirst =>
          ⟨tr ++ [.logInfo "get signal %s" sig, .afterFunc timeout, .clientClose,
              .logExit "app exit now..."], .exited⟩ := by
  cases sig <;> cases race <;>
    first
    | exact absurd rfl hs
    | simp [initSignal, uninitClient, timerCallback, logExit]

theorem signals_split (sigs : List Signal) :
    (∀ s ∈ sigs, s = Signal.SIGHUP) ∨
    ∃ hups sig rest, sigs = hups ++ sig :: rest ∧ (∀ s ∈ hups, s = Signal.SIGHUP) ∧
      sig ≠ Signal.SIGHUP := by
  induction sigs with
  | nil => exact Or.inl (by simp)
  | cons s sigs ih =>
    by_cases hs : s = Signal.SIGHUP
    · rcases ih with h | ⟨hups, sig, rest, he, hh, hne⟩
      · left
        intro t ht
        rcases List.mem_cons.mp ht with h1 | h1
        · rw [h1, hs]
        · exact h t h1
      · right
        refine ⟨s :: hups, sig, rest, by rw [he]; rfl, ?_, hne⟩
        intro t ht
        rcases List.mem_cons.mp ht with h1 | h1
        · rw [h1, hs]
        · exact hh t h1
    · right
      exact ⟨[], s, sigs, rfl, by simp, hs⟩

theorem count_clientClose_logInfo (l : List Signal) :
    (l.map (SigEvent.logInfo "get signal %s")).count SigEvent.clientClose = 0 := by
  rw [List.count_eq_zero]
  intro h
  rcases List.mem_map.mp h with ⟨s, _, hs⟩
  cases hs

/-- C8, counterexample.  On the single signal `SIGTERM`, when the timer does
not fire first, `initSignal` starts the timer, closes the client and calls
`log.Exit("app exit now...")`, which ends the process: the function does
not return and `log.Close()` is not reached.  When the timer fires before
`uninitClient()` is called, the process is ended with the client never
closed. -/
theorem initSignal_exits_without_return :
    initSignal 3000000000 .mainExitsFirst [Signal.SIGTERM] []
      = ⟨[.logInfo "get signal %s" .SIGTERM, .afterFunc 3000000000, .clientClose,
          .logExit "app exit now..."], .exited⟩ ∧
    (initSignal 3000000000 .mainExitsFirst [Signal.SIGTERM] []).status
      ≠ RunStatus.returned ∧
    SigEvent.logClose ∉ (initSignal 3000000000 .mainExitsFirst [Signal.SIGTERM] []).trace ∧
    initSignal 0 .firesBeforeClose [Signal.SIGTERM] []
      = ⟨[.logInfo "get signal %s" .SIGTERM, .afterFunc 0,
          .logExit "app exit now by force..."], .forcedExit⟩ ∧
    (initSignal 0 .firesBeforeClose [Signal.SIGTERM] []).trace.count SigEvent.clientClose
      = 0 := by
  decide

/-- C8, amended.  Every sequence of received signals is handled in one of
two ways, however the timer callback interleaves.  If all the signals are
`SIGHUP`, each
is only logged: the client is not closed, no timer is started and the loop
is still waiting.  Otherwise, after the leading `SIGHUP`s (each only
logged), the first other signal starts the grace-period timer; the client
is then closed at most once, and exactly once unless the timer fires before
the call; and the run ends with the process exiting, through
`log.Exit("app exit now...")` after the close or through the timer
callback, without a return and without reading further signals.  No close
comes before that signal. -/
theorem initSignal_closes_at_most_once (timeout : Int) (race : TimerRace)
    (sigs : List Signal) :
    ((∀ s ∈ sigs, s = Signal.SIGHUP) ∧
      initSignal timeout race sigs []
        = ⟨sigs.map (SigEvent.logInfo "get signal %s"), .waiting⟩ ∧
      (initSignal timeout race sigs []).trace.count SigEvent.clientClose = 0) ∨
    (∃ hups sig rest, sigs = hups ++ sig :: rest ∧
      (∀ s ∈ hups, s = Signal.SIGHUP) ∧ sig ≠ Signal.SIGHUP ∧
      initSignal timeout race hups []
        = ⟨hups.map (SigEvent.logInfo "get signal %s"), .waiting⟩ ∧
      initSignal timeout race sigs []
        = (match race with
          | .firesBeforeClose =>
            ⟨hups.map (SigEvent.logInfo "get signal %s")
              ++ [.logInfo "get signal %s" sig, .afterFunc timeout,
                  .logExit "app exit now by force..."], .forcedExit⟩
          | .firesAfterCloseCall =>
            ⟨hups.map (SigEvent.logInfo "get signal %s")
              ++ [.logInfo "get signal %s" sig, .afterFunc timeout, .clientClose,
                  .logExit "app exit now by force..."], .forcedExit⟩
          | .mainExitsFirst =>
            ⟨hups.map (SigEvent.logInfo "get signal %s")
              ++ [.logInfo "get signal %s" sig, .afterFunc timeout, .clientClose,
                  .logExit "app exit now..."], .exited⟩) ∧
      (initSignal timeout race sigs []).trace.count SigEvent.clientClose ≤ 1 ∧
      (race ≠ .firesBeforeClose →
        (initSignal timeout race sigs []).trace.count SigEvent.clientClose = 1) ∧
      (initSignal timeout race sigs []).status ≠ .returned ∧
      (initSignal timeout race sigs []).status ≠ .waiting) := by
  have hall : ∀ l : List Signal, (∀ s ∈ l, s = Signal.SIGHUP) →
      initSignal timeout race l []
        = ⟨l.map (SigEvent.logInfo "get signal %s"), .waiting⟩ := by
    intro l hl
    have h := initSignal_hups timeout race l [] [] hl
    simpa [initSignal] using h
  rcases signals_split sigs with h | ⟨hups, sig, rest, he, hh, hne⟩
  · left
    refine ⟨h, hall sigs h, ?_⟩
    rw [hall sigs h]
    exact count_clientClose_logInfo sigs
  · right
    have hrun := initSignal_stop timeout race sig rest
      ([] ++ hups.map (SigEvent.logInfo "get signal %s")) hne
    rw [← initSignal_hups timeout race hups (sig :: rest) [] hh, ← he] at hrun
    refine ⟨hups, sig, rest, he, hh, hne, hall hups hh, ?_, ?_, ?_, ?_, ?_⟩
    · rw [hrun]
      cases race <;> simp
    · rw [hrun]
      cases race <;>
        simp [List.count_append, count_clientClose_logInfo, List.count_cons]
    · intro hr
      rw [hrun]
      cases race <;>
        first
        | exact absurd rfl hr
        | simp [List.count_append, count_clientClose_logInfo, List.count_cons]
    · rw [hrun]
      cases race <;> simp
    · rw [hrun]
      cases race <;> simp

/-- C8, amended, at a concrete input: two `SIGHUP`s, then `SIGINT`, with the
timer firing once the close has been called. -/
theorem initSignal_closes_at_most_once_witness :
    (initSignal 3000000000 .firesAfterCloseCall
        [Signal.SIGHUP, Signal.SIGHUP, Signal.SIGINT, Signal.SIGTERM] []).trace.count
      SigEvent.clientClose = 1 := by
  rcases initSignal_closes_at_most_once 3000000000 .firesAfterCloseCall
      [Signal.SIGHUP, Signal.SIGHUP, Signal.SIGINT, Signal.SIGTERM] with h | h
  · exact absurd (h.1 Signal.SIGINT (by decide)) (by decide)
  · obtain ⟨_, _, _, _, _, _, _, _, _, hone, _, _⟩ := h
    exact hone (by decide)

/-! ## The demo calls -/

theorem attempted_append (t u : List DemoEvent) :
    attempted (t ++ u) = attempted t ++ attempted u := by
  simp [attempted, List.filterMap_append]

theorem testJSON_attempted (callErr : Codec → String → Bool) (s : DemoState) :
    attempted (testJSON callErr s).trace
      = attempted s.trace
        ++ (throughFirstFailure (callErr .CodecJson) ["Test", "Add", "Err"]).map
            (Prod.mk Codec.CodecJson) := by
  cases h1 : callErr .CodecJson "Test" <;> cases h2 : callErr .CodecJson "Add" <;>
    cases h3 : callErr .CodecJson "Err" <;>
    simp [testJSON, clientCall, emit, attempted_append, throughFirstFailure, h1, h2, h3,
      attempted]

theorem testProtobuf_attempted (callErr : Codec → String → Bool) (s : DemoState) :
    attempted (testProtobuf callErr s).trace
      = attempted s.trace
        ++ (throughFirstFailure (callErr .CodecProtobuf) ["Test", "Add", "Err"]).map
            (Prod.mk Codec.CodecProtobuf) := by
  cases h1 : callErr .CodecProtobuf "Test" <;> cases h2 : callErr .CodecProtobuf "Add" <;>
    cases h3 : callErr .CodecProtobuf "Err" <;>
    simp [testProtobuf, clientCall, emit, attempted_append, throughFirstFailure, h1, h2, h3,
      attempted]

/-- C7, counterexample.  When the first call (JSON `Test`) hands back an
error and every other call succeeds, `testJSON` returns at once: the JSON
calls `Add` and `Err` are never attempted, and four calls are made, not
six. -/
theorem test_skips_after_failure :
    attempted
        (test (fun codec method => decide (codec = Codec.CodecJson ∧ method = "Test"))
          ⟨0, []⟩).trace
      = [(.CodecJson, "Test"), (.CodecProtobuf, "Test"), (.CodecProtobuf, "Add"),
          (.CodecProtobuf, "Err")] ∧
    (Codec.CodecJson, "Add") ∉ attempted
        (test (fun codec method => decide (codec = Codec.CodecJson ∧ method = "Test"))
          ⟨0, []⟩).trace := by
  decide

/-- C7, amended.  A call failure is not fatal to the demo run, but it ends
the batch it occurs in: for every assignment of success or failure to the
calls, the calls attempted are the JSON calls `Test`, `Add`, `Err` up to and
including the first one that fails, followed by the protobuf calls `Test`,
`Add`, `Err` up to and including the first one that fails.  The first call
of each batch is always attempted, and all six are attempted, in that
order, when no `Test` or `Add` call fails. -/
theorem test_attempted (callErr : Codec → String → Bool) (s : DemoState) :
    attempted (test callErr s).trace
      = attempted s.trace
        ++ (throughFirstFailure (callErr .CodecJson) ["Test", "Add", "Err"]).map
            (Prod.mk Codec.CodecJson)
        ++ (throughFirstFailure (callErr .CodecProtobuf) ["Test", "Add", "Err"]).map
            (Prod.mk Codec.CodecProtobuf) ∧
    (Codec.CodecJson, "Test") ∈ attempted (test callErr s).trace ∧
    (Codec.CodecProtobuf, "Test") ∈ attempted (test callErr s).trace ∧
    (callErr .CodecJson "Test" = false → callErr .CodecJson "Add" = false →
      callErr .CodecProtobuf "Test" = false → callErr .CodecProtobuf "Add" = false →
      attempted (test callErr s).trace
        = attempted s.trace
          ++ [(.CodecJson, "Test"), (.CodecJson, "Add"), (.CodecJson, "Err"),
              (.CodecProtobuf, "Test"), (.CodecProtobuf, "Add"),
              (.CodecProtobuf, "Err")]) := by
  have hrun : attempted (test callErr s).trace
      = attempted s.trace
        ++ (throughFirstFailure (callErr .CodecJson) ["Test", "Add", "Err"]).map
            (Prod.mk Codec.CodecJson)
        ++ (throughFirstFailure (callErr .CodecProtobuf) ["Test", "Add", "Err"]).map
            (Prod.mk Codec.CodecProtobuf) := by
    have hloop : test callErr s
        = testProtobuf callErr (emit (.logDebug "start to test pb:")
            (testJSON callErr (emit (.logDebug "start to test json:") s))) := rfl
    rw [hloop, testProtobuf_attempted]
    simp only [emit, attempted_append]
    rw [testJSON_attempted]
    simp [attempted]
  refine ⟨hrun, ?_, ?_, ?_⟩
  · rw [hrun]
    cases h1 : callErr .CodecJson "Test" <;> simp [throughFirstFailure, h1]
  · rw [hrun]
    cases h1 : callErr .CodecProtobuf "Test" <;> simp [throughFirstFailure, h1]
  · intro h1 h2 h3 h4
    rw [hrun]
    cases h5 : callErr .CodecJson "Err" <;> cases h6 : callErr .CodecProtobuf "Err" <;>
      simp [throughFirstFailure, h1, h2, h3, h4, h5, h6]

/-- C7, amended, at the run in which every call succeeds: all six calls are
attempted, in order. -/
theorem test_attempted_witness :
    attempted (test (fun _ _ => false) ⟨0, []⟩).trace
      = attempted ([] : List DemoEvent)
        ++ [(.CodecJson, "Test"), (.CodecJson, "Add"), (.CodecJson, "Err"),
            (.CodecProtobuf, "Test"), (.CodecProtobuf, "Add"), (.CodecProtobuf, "Err")] :=
  (test_attempted (fun _ _ => false) ⟨0, []⟩).2.2.2 rfl rfl rfl rfl

/-! ## Round robin over consecutive sequence values -/

theorem counterAfter_of_range (S : Int) (k : Nat) (h0 : 0 ≤ S)
    (h1 : S + (k : Int) < 2 ^ 63) : counterAfter S k = S + (k : Int) := by
  induction k with
  | zero => simp [counterAfter]
  | succ k ih =>
    have hk : S + (k : Int) < 2 ^ 63 := by push_cast at h1; omega
    have hlo : -(2 ^ 63 : Int) ≤ S + (k : Int) + 1 := by
      have : (0 : Int) ≤ 2 ^ 63 := by norm_num
      omega
    have hhi : S + (k : Int) + 1 < 2 ^ 63 := by push_cast at h1; omega
    show atomicAddInt64 (counterAfter S k) 1 = S + ((k + 1 : Nat) : Int)
    rw [ih hk]
    unfold atomicAddInt64
    rw [toInt64_of_range _ hlo hhi]
    push_cast
    ring

theorem mod_shift_exists (s N i : Nat) (hN : 0 < N) (hi : i < N) :
    (s + (i + N - s % N) % N) % N = i := by
  have hlt : s % N < N := Nat.mod_lt s hN
  have hdiv : s % N + N * (s / N) = s := Nat.mod_add_div s N
  have hsum : s + (i + N - s % N) = i + N * (s / N + 1) := by
    rw [Nat.mul_add, Nat.mul_one]
    generalize N * (s / N) = q at hdiv ⊢
    omega
  rw [Nat.add_mod_mod, hsum, Nat.add_mul_mod_self_left, Nat.mod_eq_of_lt hi]

theorem mod_shift_unique (s N k j : Nat) (hk : k < N) (hj : j < N)
    (h : (s + k) % N = (s + j) % N) : k = j := by
  have hmod : k ≡ j [MOD N] := Nat.ModEq.add_left_cancel' s h
  have h2 : k % N = j % N := hmod
  rwa [Nat.mod_eq_of_lt hk, Nat.mod_eq_of_lt hj] at h2

theorem chosenIndex_add (w : Nat) (hw : isIntSize w) (S : Int) (N k : Nat) (h0 : 0 ≤ S)
    (h1 : S + (k : Int) < 2 ^ (w - 1)) :
    chosenIndex w (S + (k : Int)) N = (((S.toNat + k) % N : Nat) : Int) := by
  have hnn : 0 ≤ S + (k : Int) := by omega
  have htn : (S + (k : Int)).toNat = S.toNat + k := by omega
  rw [chosenIndex_toNat w hw _ N hnn h1, htn]

/-- C10, counterexample.  On a 64-bit target, starting from the non-negative
sequence value `2^63 - 1` with three candidates, the next value of the
counter wraps to `-2^63`, for which the index is `-2` and the call panics;
among the three consecutive calls none selects index 0.  On a 32-bit target
the same happens from `2^31 - 1`, where the next value `2^31` is truncated
by `int(seq)`. -/
theorem LoadBalance_round_robin_wraps :
    isInt64 9223372036854775807 ∧
    counterAfter 9223372036854775807 1 = -9223372036854775808 ∧
    chosenIndex 64 (counterAfter 9223372036854775807 1) 3 = -2 ∧
    (LoadBalance 64 0 (some (seqContext (counterAfter 9223372036854775807 1)))
        (some ⟨["A", "B", "C"]⟩)).out = .panic (.indexOutOfRange (-2) 3) ∧
    (¬ ∃ k : Nat, k < 3 ∧ chosenIndex 64 (counterAfter 9223372036854775807 k) 3 = 0) ∧
    counterAfter 2147483647 1 = 2147483648 ∧
    chosenIndex 32 (counterAfter 2147483647 1) 3 = -2 ∧
    (LoadBalance 32 0 (some (seqContext (counterAfter 2147483647 1)))
        (some ⟨["A", "B", "C"]⟩)).out = .panic (.indexOutOfRange (-2) 3) ∧
    ¬ ∃ k : Nat, k < 3 ∧ chosenIndex 32 (counterAfter 2147483647 k) 3 = 0 := by
  decide

/-- C10, amended.  On a target whose `int` is `w` bits wide (32 or 64), for
every non-empty candidate set of length `N` and every non-negative starting
sequence value `S` with `S + N` still in the range of `int`
(`S + N < 2^(w-1)`), the counter yields `S, S+1, ..., S+N` in turn; the `N`
calls with the values `S, ..., S+N-1` return without error
`candidates[(S+k) mod N]`, they select every index `0..N-1` exactly once,
and the calls with `S` and `S+N` return the same instance. -/
theorem LoadBalance_round_robin {α : Type} (w : Nat) (hw : isIntSize w) (rnd : Int)
    (a : ServiceArray α) (S : Int) (h0 : 0 ≤ S)
    (h1 : S + (a.Arr.length : Int) < 2 ^ (w - 1)) (hN : 0 < a.Arr.length) :
    (∀ k : Nat, k ≤ a.Arr.length → counterAfter S k = S + (k : Int)) ∧
    (∀ k : Nat, k < a.Arr.length →
      (LoadBalance w rnd (some (seqContext (counterAfter S k))) (some a)).out
        = .ret (a.Arr.get ⟨(S.toNat + k) % a.Arr.length, Nat.mod_lt _ hN⟩)) ∧
    (∀ i : Nat, i < a.Arr.length →
      ∃! k : Nat, k < a.Arr.length ∧
        chosenIndex w (counterAfter S k) a.Arr.length = (i : Int)) ∧
    LoadBalance w rnd (some (seqContext (counterAfter S a.Arr.length))) (some a)
      = LoadBalance w rnd (some (seqContext S)) (some a) := by
  have hle := isIntSize_pow_le w hw
  have hrange : ∀ k : Nat, k ≤ a.Arr.length → S + (k : Int) < 2 ^ (w - 1) := by
    intro k hk
    have : (k : Int) ≤ (a.Arr.length : Int) := by exact_mod_cast hk
    omega
  have hcnt : ∀ k : Nat, k ≤ a.Arr.length → counterAfter S k = S + (k : Int) := by
    intro k hk
    exact counterAfter_of_range S k h0 (lt_of_lt_of_le (hrange k hk) hle)
  have hcall : ∀ k : Nat, k ≤ a.Arr.length →
      LoadBalance w rnd (some (seqContext (counterAfter S k))) (some a)
        = ⟨.ret (a.Arr.get ⟨(S.toNat + k) % a.Arr.length, Nat.mod_lt _ hN⟩), some a⟩ := by
    intro k hk
    have hnn : 0 ≤ S + (k : Int) := by omega
    have htn : (S + (k : Int)).toNat = S.toNat + k := by omega
    have h := LoadBalance_of_seqOf w hw rnd (some (seqContext (S + (k : Int)))) a
      (S + (k : Int)) (seqOf_int64 rnd _ _ (by simp [seqContext, Context.Value])) hnn
      (hrange k hk) hN
    rw [hcnt k hk, h]
    simp only [htn]
  have hidx : ∀ k : Nat, k < a.Arr.length →
      chosenIndex w (counterAfter S k) a.Arr.length
        = (((S.toNat + k) % a.Arr.length : Nat) : Int) := by
    intro k hk
    rw [hcnt k (Nat.le_of_lt hk)]
    exact chosenIndex_add w hw S a.Arr.length k h0 (hrange k (Nat.le_of_lt hk))
  refine ⟨hcnt, ?_, ?_, ?_⟩
  · intro k hk
    rw [hcall k (Nat.le_of_lt hk)]
  · intro i hi
    refine ⟨(i + a.Arr.length - S.toNat % a.Arr.length) % a.Arr.length,
      ⟨Nat.mod_lt _ hN, ?_⟩, ?_⟩
    · rw [hidx _ (Nat.mod_lt _ hN), mod_shift_exists S.toNat a.Arr.length i hN hi]
    · rintro j ⟨hj, hji⟩
      rw [hidx j hj] at hji
      have hji2 : (S.toNat + j) % a.Arr.length = i := by exact_mod_cast hji
      apply mod_shift_unique S.toNat a.Arr.length j _ hj (Nat.mod_lt _ hN)
      rw [hji2, mod_shift_exists S.toNat a.Arr.length i hN hi]
  · have hS := hcall 0 (Nat.zero_le _)
    have hSN := hcall a.Arr.length (Nat.le_refl _)
    have h00 : counterAfter S 0 = S := rfl
    rw [h00] at hS
    rw [hS, hSN]
    simp

/-- C10, amended, at a concrete input on a 32-bit target: three candidates
and the starting value `1` of the demo's counter. -/
theorem LoadBalance_round_robin_witness :
    (∀ k : Nat, k ≤ 3 → counterAfter 1 k = 1 + (k : Int)) ∧
    (∀ k : Nat, k < 3 →
      (LoadBalance 32 0 (some (seqContext (counterAfter 1 k)))
          (some ⟨["A", "B", "C"]⟩)).out
        = .ret ((["A", "B", "C"]).get ⟨(1 + k) % 3, Nat.mod_lt _ (by decide)⟩)) ∧
    (∀ i : Nat, i < 3 →
      ∃! k : Nat, k < 3 ∧ chosenIndex 32 (counterAfter 1 k) 3 = (i : Int)) ∧
    LoadBalance 32 0 (some (seqContext (counterAfter 1 3))) (some ⟨["A", "B", "C"]⟩)
      = LoadBalance 32 0 (some (seqContext 1)) (some ⟨["A", "B", "C"]⟩) :=
  LoadBalance_round_robin 32 (by decide) 0 ⟨["A", "B", "C"]⟩ 1 (by decide) (by decide)
    (by decide)

end Getty
